import Mathlib

/-!
Shallow embedding of the dinopark-maintenance-api core: the entity store
(schema), the NUDLS event processors (src/services/nudls-processors.ts),
and the safety/maintenance logic (src/lib/safety-and-maintenance.ts).

Timestamps are modelled as `Int` milliseconds since the epoch (the
value of `Date.getTime()`); the
source computes hour differences as `(now - t) / 3_600_000` in floating
point and compares against whole-hour periods, which over exact
arithmetic is the same strict comparison scaled to milliseconds.
-/

def msPerHour : Int := 3600000

def msPerDay : Int := 86400000

/-- One row of the `dinosaurs` table (schema, latest migration snapshot):
nudls_id unique, nullable text fields, `herbivore` boolean, nullable
`current_location`, nullable `last_fed_time`, nullable
`digestion_period_hours`, nullable `park_id`.  The wall-clock audit
columns `created_at` / `updated_at` are not part of the Agent data model
and are omitted. -/
structure Dinosaur where
  nudlsId : Int
  name : Option String
  species : Option String
  gender : Option String
  herbivore : Bool
  currentLocation : Option String
  lastFedTime : Option Int
  digestionPeriodHours : Option Int
  parkId : Option Int
  deriving DecidableEq, Repr

/-- One row of the `zones` table: primary-key code and nullable
`last_maintenance_date`. -/
structure ZoneRow where
  id : String
  lastMaintenanceDate : Option Int
  deriving DecidableEq, Repr

/-- One row of the `maintenance_records` table; `zone_id` carries a
unique constraint (latest migration snapshot), so the upsert keyed on it
keeps at most one record per zone. -/
structure MaintenanceRecord where
  zoneId : String
  performedAt : Option Int
  performedBy : Option String
  notes : Option String
  deriving DecidableEq, Repr

/-- The entity store: the three tables the core reads and writes. -/
structure DbState where
  dinosaurs : List Dinosaur
  zones : List ZoneRow
  maintenanceRecords : List MaintenanceRecord
  deriving DecidableEq, Repr

def emptyDb : DbState := { dinosaurs := [], zones := [], maintenanceRecords := [] }

/-- `select ... where eq(dinosaurs.nudlsId, id) limit 1`. -/
def findDinoL (l : List Dinosaur) (id : Int) : Option Dinosaur :=
  l.find? (fun d => d.nudlsId == id)

def DbState.findDino (s : DbState) (id : Int) : Option Dinosaur :=
  findDinoL s.dinosaurs id

/-- The store's `insert ... onConflictDoUpdate(target: nudlsId)`
primitive: update the row carrying the conflicting key if one exists,
otherwise insert the new row. -/
def upsertDinoL (l : List Dinosaur) (id : Int) (ins : Dinosaur)
    (upd : Dinosaur → Dinosaur) : List Dinosaur :=
  match l with
  | [] => [ins]
  | d :: ds => if d.nudlsId == id then upd d :: ds else d :: upsertDinoL ds id ins upd

def DbState.upsertDino (s : DbState) (id : Int) (ins : Dinosaur)
    (upd : Dinosaur → Dinosaur) : DbState :=
  { s with dinosaurs := upsertDinoL s.dinosaurs id ins upd }

/-! ## NUDLS events (src/types/nudls.ts)

Fields that the processors guard with JavaScript truthiness checks are
modelled as `Option` so that an absent (`undefined`/`null`) value is
representable; the number `0` and the empty string are also falsy and
the guards treat them as absent. -/

structure DinoAddedEvent where
  id : Int
  name : String
  species : String
  gender : String
  herbivore : Bool
  digestion_period_in_hours : Int
  park_id : Int
  time : Int
  deriving DecidableEq, Repr

structure DinoRemovedEvent where
  id : Option Int
  park_id : Int
  time : Int
  deriving DecidableEq, Repr

structure DinoLocationUpdatedEvent where
  dinosaur_id : Option Int
  location : Option String
  park_id : Int
  time : Int
  deriving DecidableEq, Repr

structure DinoFedEvent where
  dinosaur_id : Option Int
  park_id : Int
  time : Int
  deriving DecidableEq, Repr

structure MaintenancePerformedEvent where
  location : Option String
  park_id : Int
  time : Int
  deriving DecidableEq, Repr

inductive NudlsEvent where
  | dino_added (e : DinoAddedEvent)
  | dino_removed (e : DinoRemovedEvent)
  | dino_location_updated (e : DinoLocationUpdatedEvent)
  | dino_fed (e : DinoFedEvent)
  | maintenance_performed (e : MaintenancePerformedEvent)
  deriving DecidableEq, Repr

/-- Errors a store call can raise: the collaborator being unavailable,
or a NOT NULL constraint violation on insert. -/
inductive DbError where
  | storeUnavailable
  | notNullViolation
  deriving DecidableEq, Repr

/-! ## Schema column defaults used by shell rows

A dino_fed or dino_location_updated event arriving before its dino_added
inserts a shell row whose unspecified columns take the schema defaults. -/

/-- Modelled from the spec: the `digestion_period_hours` column default of
the schema module, whose source file is absent (only its generated
migration snapshots are present).  The spec fixes it at 12
("digestionPeriodHours (positive integer, default 12)"), which matches
the latest migration snapshot (`"default": 12`). -/
def defaultDigestionPeriodHours : Option Int := some 12

/-- Modelled from the spec and the latest migration snapshot: the
`herbivore` column defaults to `true`. -/
def defaultHerbivore : Bool := true

/-- Shell row inserted by `processDinoFed` for an unknown dinosaur:
only nudlsId, lastFedTime and parkId are set; the rest use defaults. -/
def fedShellRow (id : Int) (t : Int) (park : Int) : Dinosaur :=
  { nudlsId := id
    name := none
    species := none
    gender := none
    herbivore := defaultHerbivore
    currentLocation := none
    lastFedTime := some t
    digestionPeriodHours := defaultDigestionPeriodHours
    parkId := some park }

/-- Shell row inserted by `processDinoLocationUpdated` for an unknown
dinosaur: only nudlsId, currentLocation and parkId are set. -/
def locShellRow (id : Int) (loc : String) (park : Int) : Dinosaur :=
  { nudlsId := id
    name := none
    species := none
    gender := none
    herbivore := defaultHerbivore
    currentLocation := some loc
    lastFedTime := none
    digestionPeriodHours := defaultDigestionPeriodHours
    parkId := some park }

/-! ## Event processors (src/services/nudls-processors.ts) -/

/-- `hasDinosaurIdentityChanged`: true when no row exists or any identity
column differs from the event payload. -/
def hasDinosaurIdentityChanged (s : DbState) (e : DinoAddedEvent) : Bool :=
  match s.findDino e.id with
  | none => true
  | some d =>
    d.name != some e.name || d.species != some e.species ||
    d.gender != some e.gender || d.herbivore != e.herbivore ||
    d.digestionPeriodHours != some e.digestion_period_in_hours ||
    d.parkId != some e.park_id

/-- Row inserted by `processDinoAdded` when the dinosaur is absent:
operational columns are explicitly null. -/
def addedInsertRow (e : DinoAddedEvent) : Dinosaur :=
  { nudlsId := e.id
    name := some e.name
    species := some e.species
    gender := some e.gender
    herbivore := e.herbivore
    currentLocation := none
    lastFedTime := none
    digestionPeriodHours := some e.digestion_period_in_hours
    parkId := some e.park_id }

/-- Conflict-update of `processDinoAdded`: overwrite identity columns
only, never currentLocation or lastFedTime. -/
def addedUpdateRow (e : DinoAddedEvent) (d : Dinosaur) : Dinosaur :=
  { d with
    name := some e.name
    species := some e.species
    gender := some e.gender
    herbivore := e.herbivore
    digestionPeriodHours := some e.digestion_period_in_hours
    parkId := some e.park_id }

/-- The successful path of `processDinoAdded` (store up): skip when no
identity column changed, otherwise upsert keyed on nudlsId. -/
def runDinoAdded (e : DinoAddedEvent) (s : DbState) : DbState :=
  if hasDinosaurIdentityChanged s e then
    s.upsertDino e.id (addedInsertRow e) (addedUpdateRow e)
  else s

/-- `processDinoAdded`: its catch block rethrows, so a store failure on
the very first select propagates to the caller. -/
def processDinoAdded (up : Bool) (e : DinoAddedEvent) (s : DbState) :
    Except DbError DbState :=
  if !up then .error .storeUnavailable
  else .ok (runDinoAdded e s)

/-- `processDinoRemoved`: skips falsy ids, skips unknown dinosaurs,
deletes by nudlsId otherwise; its catch block swallows every error, so
the function always returns normally. -/
def processDinoRemoved (up : Bool) (e : DinoRemovedEvent) (s : DbState) : DbState :=
  match e.id with
  | none => s
  | some id =>
    if id == 0 then s
    else if !up then s
    else if s.dinosaurs.any (fun d => d.nudlsId == id) then
      { s with dinosaurs := s.dinosaurs.filter (fun d => !(d.nudlsId == id)) }
    else s

/-- `hasLocationChanged`: true when no row exists or the stored location
differs from the incoming one. -/
def hasLocationChanged (s : DbState) (id : Int) (newLoc : String) : Bool :=
  match s.findDino id with
  | none => true
  | some d => d.currentLocation != some newLoc

/-- `processDinoLocationUpdated`: validates dinosaur_id and location by
truthiness, skips unchanged locations, upserts currentLocation only; its
catch block swallows every error (including store failures). -/
def processDinoLocationUpdated (up : Bool) (e : DinoLocationUpdatedEvent)
    (s : DbState) : DbState :=
  match e.dinosaur_id, e.location with
  | some id, some loc =>
    if id == 0 then s
    else if loc == "" then s
    else if !up then s
    else if hasLocationChanged s id loc then
      s.upsertDino id (locShellRow id loc e.park_id)
        (fun d => { d with currentLocation := some loc })
    else s
  | _, _ => s

/-- `hasFeedingChanged`: true when no row exists, the stored feed time is
null, or it differs from the incoming one. -/
def hasFeedingChanged (s : DbState) (id : Int) (newFeedTime : Int) : Bool :=
  match s.findDino id with
  | none => true
  | some d => d.lastFedTime != some newFeedTime

/-- `processDinoFed`: validates dinosaur_id by truthiness, skips
unchanged feed times, upserts lastFedTime only; its catch block swallows
every error (including store failures). -/
def processDinoFed (up : Bool) (e : DinoFedEvent) (s : DbState) : DbState :=
  match e.dinosaur_id with
  | none => s
  | some id =>
    if id == 0 then s
    else if !up then s
    else if hasFeedingChanged s id e.time then
      s.upsertDino id (fedShellRow id e.time e.park_id)
        (fun d => { d with lastFedTime := some e.time })
    else s

/-- `hasMaintenanceChanged`: true when no record exists for the zone, the
stored performedAt is null, or it differs from the incoming time. -/
def hasMaintenanceChanged (s : DbState) (zoneId : String) (t : Int) : Bool :=
  match s.maintenanceRecords.find? (fun r => r.zoneId == zoneId) with
  | none => true
  | some r => r.performedAt != some t

/-- Upsert of the `maintenance_records` table keyed on its unique
zone_id column. -/
def upsertMaintenance (s : DbState) (loc : String) (t : Int) : DbState :=
  if s.maintenanceRecords.any (fun r => r.zoneId == loc) then
    { s with maintenanceRecords := s.maintenanceRecords.map (fun r =>
        if r.zoneId == loc then
          { r with
            performedAt := some t
            notes := some ("Maintenance performed via NUDLS event at " ++ toString t) }
        else r) }
  else
    { s with maintenanceRecords := s.maintenanceRecords ++
        [{ zoneId := loc
           performedAt := some t
           performedBy := some "NUDLS System"
           notes := some ("Maintenance performed via NUDLS event at " ++ toString t) }] }

/-- Upsert of the `zones` table keyed on its primary-key code. -/
def upsertZone (s : DbState) (loc : String) (t : Int) : DbState :=
  if s.zones.any (fun z => z.id == loc) then
    { s with zones := s.zones.map (fun z =>
        if z.id == loc then { z with lastMaintenanceDate := some t } else z) }
  else
    { s with zones := s.zones ++ [{ id := loc, lastMaintenanceDate := some t }] }

/-- `processMaintenancePerformed`: no truthiness validation of the zone
code; with a missing location the select matches nothing and the insert
of a NULL zone_id violates the NOT NULL constraint, and the catch block
rethrows, so the event fails.  A store failure on the first select also
propagates. -/
def processMaintenancePerformed (up : Bool) (e : MaintenancePerformedEvent)
    (s : DbState) : Except DbError DbState :=
  if !up then .error .storeUnavailable
  else match e.location with
    | none => .error .notNullViolation
    | some loc =>
      if hasMaintenanceChanged s loc e.time then
        .ok (upsertZone (upsertMaintenance s loc e.time) loc e.time)
      else .ok s

/-- `processEvent`: route by kind; dino_added and maintenance_performed
rethrow their errors, the other three kinds always return normally. -/
def processEvent (up : Bool) (ev : NudlsEvent) (s : DbState) :
    Except DbError DbState :=
  match ev with
  | .dino_added e => processDinoAdded up e s
  | .dino_removed e => .ok (processDinoRemoved up e s)
  | .dino_location_updated e => .ok (processDinoLocationUpdated up e s)
  | .dino_fed e => .ok (processDinoFed up e s)
  | .maintenance_performed e => processMaintenancePerformed up e s

/-- The summary `processEvents` returns, together with the final store
state the batch leaves behind. -/
structure BatchSummary where
  processed : Nat
  failed : Nat
  errors : List DbError
  finalState : DbState
  deriving DecidableEq, Repr

/-- `processEvents`: apply each event in order, counting successes and
failures and collecting failure causes, never aborting the batch. -/
def processEvents (up : Bool) : List NudlsEvent → DbState → BatchSummary
  | [], s => { processed := 0, failed := 0, errors := [], finalState := s }
  | ev :: rest, s =>
    match processEvent up ev s with
    | .ok s1 =>
      let r := processEvents up rest s1
      { r with processed := r.processed + 1 }
    | .error err =>
      let r := processEvents up rest s
      { r with
        failed := r.failed + 1
        errors := err :: r.errors }

/-! ## Safety and maintenance logic (src/lib/safety-and-maintenance.ts) -/

/-- Inner predicate of `calculateZoneSafety`: a carnivore with no
recorded feeding is unsafe; otherwise safe while the hours since feeding
are strictly below the digestion period (null period defaults to 12). -/
def carnivoreStillDigesting (now : Int) (d : Dinosaur) : Bool :=
  match d.lastFedTime with
  | none => false
  | some t => now - t < (d.digestionPeriodHours.getD 12) * msPerHour

/-- `calculateZoneSafety`: on any store error the catch block returns
false (fail safe); otherwise select the carnivores in the zone, empty
set means safe, else every carnivore must still be digesting. -/
def calculateZoneSafety (up : Bool) (s : DbState) (zoneId : String)
    (now : Int) : Bool :=
  if !up then false
  else
    let carnivoresInZone := s.dinosaurs.filter
      (fun d => d.currentLocation == some zoneId && !d.herbivore)
    if carnivoresInZone.isEmpty then true
    else carnivoresInZone.all (carnivoreStillDigesting now)

/-- `isMaintenanceNeeded`: never-maintained zones are due; otherwise due
exactly when the recorded date lies strictly before now minus 30 days
(`lastMaintenanceDate < thirtyDaysAgo`). -/
def isMaintenanceNeeded (lastMaintenanceDate : Option Int) (now : Int) : Bool :=
  match lastMaintenanceDate with
  | none => true
  | some d => d < now - 30 * msPerDay

/-- `generateAllZoneIds`: every column letter A through Z paired with
every row 0 through 15. -/
def generateAllZoneIds : List String :=
  ("ABCDEFGHIJKLMNOPQRSTUVWXYZ".toList).flatMap
    (fun column => (List.range 16).map (fun row => column.toString ++ toString row))

/-! ## Helper lemmas -/

lemma zoneCode_data (c : Char) (r : Nat) :
    (c.toString ++ toString r).data = c :: (toString r).data := rfl

lemma natToString_data_inj : ∀ r1 < 16, ∀ r2 < 16,
    (toString r1).data = (toString r2).data → r1 = r2 := by decide

lemma generateAllZoneIds_nodup : generateAllZoneIds.Nodup := by
  rw [generateAllZoneIds, List.nodup_flatMap]
  constructor
  · intro c _
    refine List.Nodup.map_on ?_ (List.nodup_range 16)
    intro r1 h1 r2 h2 heq
    have hd : c :: (toString r1).data = c :: (toString r2).data := by
      simpa [zoneCode_data] using congrArg String.data heq
    exact natToString_data_inj r1 (List.mem_range.mp h1) r2 (List.mem_range.mp h2)
      (List.cons.injEq .. ▸ hd).2
  · have halpha : ("ABCDEFGHIJKLMNOPQRSTUVWXYZ".toList).Nodup := by decide
    refine halpha.imp ?_
    intro c1 c2 hne
    intro x hx1 hx2
    obtain ⟨r1, -, rfl⟩ := List.mem_map.mp hx1
    obtain ⟨r2, -, heq⟩ := List.mem_map.mp hx2
    have hdata := congrArg String.data heq
    rw [zoneCode_data, zoneCode_data] at hdata
    exact hne (List.cons.injEq .. ▸ hdata).1.symm

/-! ## Claims -/

/-- Claim C1: the spec asserts `isMaintenanceDue(now − 30 days) = true`
(inclusive boundary).  The code compares with strict less-than
(`lastMaintenanceDate < thirtyDaysAgo`), so a zone maintained exactly 30
days ago is NOT yet due: at lastMaintenanceAt = 0 and now = 30 days the
function returns false. -/
theorem c1_counterexample : isMaintenanceNeeded (some 0) (30 * msPerDay) = false := by
  decide

/-- Claim C1 (amended): isMaintenanceDue(null) = true,
isMaintenanceDue(now − 29 days) = false, isMaintenanceDue(now − 30 days)
= false, isMaintenanceDue(now − 31 days) = true; the function is due iff
the timestamp is null or now minus the timestamp is strictly greater
than 30 days (the boundary at exactly 30 days is NOT due). -/
theorem c1_maintenance_boundary : ∀ now : Int,
    isMaintenanceNeeded none now = true ∧
    isMaintenanceNeeded (some (now - 29 * msPerDay)) now = false ∧
    isMaintenanceNeeded (some (now - 30 * msPerDay)) now = false ∧
    isMaintenanceNeeded (some (now - 31 * msPerDay)) now = true ∧
    ∀ t : Int, isMaintenanceNeeded (some t) now = decide (30 * msPerDay < now - t) := by
  intro now
  refine ⟨rfl, ?_, ?_, ?_, ?_⟩
  · simp only [isMaintenanceNeeded, msPerDay, decide_eq_false_iff_not]
    omega
  · simp only [isMaintenanceNeeded, msPerDay, decide_eq_false_iff_not]
    omega
  · simp only [isMaintenanceNeeded, msPerDay, decide_eq_true_eq]
    omega
  · intro t
    simp only [isMaintenanceNeeded, decide_eq_decide]
    omega

/-- Claim C3 (counterexample): the claim says a store failure during any
of the five event kinds fails that event; but a dino_fed event processed
while the store is unavailable is counted as processed (its processor
swallows the error), not as failed. -/
theorem c3_counterexample :
    (processEvents false
        [NudlsEvent.dino_fed { dinosaur_id := some 1, park_id := 1, time := 1000 }]
        emptyDb).processed = 1 ∧
    (processEvents false
        [NudlsEvent.dino_fed { dinosaur_id := some 1, park_id := 1, time := 1000 }]
        emptyDb).failed = 0 := ⟨rfl, rfl⟩

/-- Claim C3 (amended): a store failure fails the event only for
dino_added and maintenance_performed; dino_removed,
dino_location_updated and dino_fed swallow the error, leave the store
unchanged and are counted as processed; the safety evaluator resolves a
store failure to unsafe (false) rather than propagating. -/
theorem c3_store_failure : ∀ (s : DbState) (ea : DinoAddedEvent)
    (em : MaintenancePerformedEvent) (er : DinoRemovedEvent)
    (el : DinoLocationUpdatedEvent) (ef : DinoFedEvent) (z : String) (now : Int),
    processDinoAdded false ea s = Except.error DbError.storeUnavailable ∧
    processMaintenancePerformed false em s = Except.error DbError.storeUnavailable ∧
    processDinoRemoved false er s = s ∧
    processDinoLocationUpdated false el s = s ∧
    processDinoFed false ef s = s ∧
    (processEvents false [NudlsEvent.dino_added ea] s).failed = 1 ∧
    (processEvents false [NudlsEvent.maintenance_performed em] s).failed = 1 ∧
    (processEvents false
        [NudlsEvent.dino_removed er, NudlsEvent.dino_location_updated el,
          NudlsEvent.dino_fed ef] s).processed = 3 ∧
    (processEvents false
        [NudlsEvent.dino_removed er, NudlsEvent.dino_location_updated el,
          NudlsEvent.dino_fed ef] s).failed = 0 ∧
    calculateZoneSafety false s z now = false := by
  intro s ea em er el ef z now
  have hrem : processDinoRemoved false er s = s := by
    rcases er with ⟨oid, p, t⟩
    cases oid <;> simp [processDinoRemoved]
  have hloc : processDinoLocationUpdated false el s = s := by
    rcases el with ⟨oid, oloc, p, t⟩
    cases oid <;> cases oloc <;> simp [processDinoLocationUpdated]
  have hfed : processDinoFed false ef s = s := by
    rcases ef with ⟨oid, p, t⟩
    cases oid <;> simp [processDinoFed]
  refine ⟨rfl, rfl, hrem, hloc, hfed, ?_, ?_, ?_, ?_, rfl⟩
  · simp [processEvents, processEvent, processDinoAdded]
  · simp [processEvents, processEvent, processMaintenancePerformed]
  · simp [processEvents, processEvent, hrem, hloc, hfed]
  · simp [processEvents, processEvent, hrem, hloc, hfed]

/-- Claim C7: a maintenance_performed event with a missing zone code
fails (the NOT NULL constraint on zone_id rejects the insert and the
processor rethrows), the batch records it as one failure with its cause
in the error list, and the remaining events of the batch are processed
exactly as they would have been without it. -/
theorem c7_missing_zone_failure (e : MaintenancePerformedEvent) (s : DbState)
    (rest : List NudlsEvent) (h : e.location = none) :
    processEvent true (NudlsEvent.maintenance_performed e) s =
      Except.error DbError.notNullViolation ∧
    processEvents true (NudlsEvent.maintenance_performed e :: rest) s =
      { processed := (processEvents true rest s).processed
        failed := (processEvents true rest s).failed + 1
        errors := DbError.notNullViolation :: (processEvents true rest s).errors
        finalState := (processEvents true rest s).finalState } := by
  have h1 : processEvent true (NudlsEvent.maintenance_performed e) s =
      Except.error DbError.notNullViolation := by
    simp [processEvent, processMaintenancePerformed, h]
  exact ⟨h1, by simp [processEvents, h1]⟩

/-- Claim C7 (witness): the missing-zone maintenance event on the empty
store, followed by an empty remainder. -/
theorem c7_missing_zone_failure_witness :
    (⟨none, 1, 5⟩ : MaintenancePerformedEvent).location = none ∧
    processEvent true (NudlsEvent.maintenance_performed ⟨none, 1, 5⟩) emptyDb =
      Except.error DbError.notNullViolation := by
  refine ⟨rfl, ?_⟩
  exact (c7_missing_zone_failure ⟨none, 1, 5⟩ emptyDb [] rfl).1

/-- Claim C8: an agent shell created by a dino_fed or
dino_location_updated event takes the schema default
digestionPeriodHours = 12, and the safety evaluation treats a null
digestionPeriodHours as a 12-hour digestion period. -/
theorem c8_default_digestion : ∀ (id : Int) (t : Int) (park : Int) (loc : String)
    (now : Int) (d : Dinosaur),
    (fedShellRow id t park).digestionPeriodHours = some 12 ∧
    (locShellRow id loc park).digestionPeriodHours = some 12 ∧
    (processDinoFed true { dinosaur_id := some 5, park_id := 1, time := 77 }
        emptyDb).findDino 5 = some (fedShellRow 5 77 1) ∧
    carnivoreStillDigesting now { d with digestionPeriodHours := none } =
      carnivoreStillDigesting now { d with digestionPeriodHours := some 12 } := by
  intro id t park loc now d
  refine ⟨rfl, rfl, rfl, ?_⟩
  rcases d with ⟨di, dn, dsp, dg, dh, dcl, dlf, ddp, dpk⟩
  cases dlf <;> simp [carnivoreStillDigesting]

set_option maxRecDepth 4000 in
/-- Claim C9: generateAllZoneIds returns exactly 416 pairwise-distinct
zone codes, contains the first code A0 and the last code Z15, and its
members are exactly the cross product of column letters A-Z and row
indices 0-15. -/
theorem c9_zone_enumeration :
    generateAllZoneIds.length = 416 ∧
    generateAllZoneIds.Nodup ∧
    "A0" ∈ generateAllZoneIds ∧
    "Z15" ∈ generateAllZoneIds ∧
    ∀ s, s ∈ generateAllZoneIds ↔
      ∃ c ∈ "ABCDEFGHIJKLMNOPQRSTUVWXYZ".toList, ∃ r < 16,
        s = c.toString ++ toString r := by
  refine ⟨rfl, generateAllZoneIds_nodup, by decide, by decide, ?_⟩
  intro s
  simp [generateAllZoneIds, List.mem_flatMap, List.mem_map, List.mem_range, eq_comm]

/-- Claim C10: for every input list, processed + failed equals the input
length and the error list records exactly one cause per failure. -/
theorem c10_batch_counts : ∀ (up : Bool) (evs : List NudlsEvent) (s : DbState),
    (processEvents up evs s).processed + (processEvents up evs s).failed = evs.length ∧
    (processEvents up evs s).errors.length = (processEvents up evs s).failed := by
  intro up evs
  induction evs with
  | nil => intro s; exact ⟨rfl, rfl⟩
  | cons ev rest ih =>
    intro s
    cases h : processEvent up ev s with
    | ok s1 =>
      obtain ⟨h1, h2⟩ := ih s1
      simp [processEvents, h]
      omega
    | error err =>
      obtain ⟨h1, h2⟩ := ih s
      simp [processEvents, h]
      omega

/-! ## Upsert lemmas -/

lemma findDinoL_cons (d : Dinosaur) (ds : List Dinosaur) (id : Int) :
    findDinoL (d :: ds) id = if d.nudlsId = id then some d else findDinoL ds id := by
  by_cases h : d.nudlsId = id
  · rw [if_pos h]
    exact List.find?_cons_of_pos _ (by simp [h])
  · rw [if_neg h]
    exact List.find?_cons_of_neg _ (by simp [h])

lemma upsertDinoL_cons (d : Dinosaur) (ds : List Dinosaur) (id : Int) (ins : Dinosaur)
    (upd : Dinosaur → Dinosaur) :
    upsertDinoL (d :: ds) id ins upd =
      if d.nudlsId = id then upd d :: ds else d :: upsertDinoL ds id ins upd := by
  by_cases h : d.nudlsId = id <;> simp [upsertDinoL, h]

lemma findDinoL_upsertDinoL (l : List Dinosaur) (id : Int) (ins : Dinosaur)
    (upd : Dinosaur → Dinosaur) (hins : ins.nudlsId = id)
    (hupd : ∀ x, (upd x).nudlsId = x.nudlsId) :
    findDinoL (upsertDinoL l id ins upd) id =
      some (match findDinoL l id with | none => ins | some d => upd d) := by
  induction l with
  | nil => simp [findDinoL, upsertDinoL, hins]
  | cons d ds ih =>
    rw [upsertDinoL_cons]
    by_cases h : d.nudlsId = id
    · rw [if_pos h, findDinoL_cons, findDinoL_cons, if_pos h, if_pos (by rw [hupd]; exact h)]
    · rw [if_neg h, findDinoL_cons, findDinoL_cons, if_neg h, if_neg h, ih]

lemma DbState.findDino_upsertDino (s : DbState) (id : Int) (ins : Dinosaur)
    (upd : Dinosaur → Dinosaur) (hins : ins.nudlsId = id)
    (hupd : ∀ x, (upd x).nudlsId = x.nudlsId) :
    (s.upsertDino id ins upd).findDino id =
      some (match s.findDino id with | none => ins | some d => upd d) :=
  findDinoL_upsertDinoL s.dinosaurs id ins upd hins hupd

lemma runDinoAdded_of_not_changed (e : DinoAddedEvent) (s : DbState)
    (h : hasDinosaurIdentityChanged s e = false) : runDinoAdded e s = s := by
  simp [runDinoAdded, h]

lemma hasDinosaurIdentityChanged_runDinoAdded (e : DinoAddedEvent) (s : DbState) :
    hasDinosaurIdentityChanged (runDinoAdded e s) e = false := by
  cases hc : hasDinosaurIdentityChanged s e with
  | false => rw [runDinoAdded_of_not_changed e s hc]; exact hc
  | true =>
    simp only [runDinoAdded, hc, if_true]
    unfold hasDinosaurIdentityChanged
    rw [DbState.findDino_upsertDino s e.id (addedInsertRow e) (addedUpdateRow e) rfl
      (fun x => rfl)]
    cases hfd : s.findDino e.id <;> simp [addedInsertRow, addedUpdateRow]

lemma runDinoAdded_idem (e : DinoAddedEvent) (s : DbState) :
    runDinoAdded e (runDinoAdded e s) = runDinoAdded e s :=
  runDinoAdded_of_not_changed e _ (hasDinosaurIdentityChanged_runDinoAdded e s)

/-- Claim C4: processing the same dino_added event N ≥ 1 times in a row
(store up) leaves the store in exactly the state a single application
produces; the processor returns normally with that state. -/
theorem c4_added_idempotent : ∀ (e : DinoAddedEvent) (s : DbState) (n : Nat),
    processDinoAdded true e s = Except.ok (runDinoAdded e s) ∧
    (runDinoAdded e)^[n + 1] s = runDinoAdded e s := by
  intro e s n
  refine ⟨rfl, ?_⟩
  induction n generalizing s with
  | zero => simp
  | succ m ih =>
    rw [Function.iterate_succ_apply, ih (runDinoAdded e s), runDinoAdded_idem]

/-- The testable-properties scenario: AgentFed(id 7, t = 1000000)
arriving in the batch before its AgentAdded(id 7, carnivore,
digestion 12, t = 999900). -/
def scenarioFed : DinoFedEvent := { dinosaur_id := some 7, park_id := 1, time := 1000000 }

def scenarioAdded : DinoAddedEvent :=
  { id := 7
    name := "Rex"
    species := "Tyrannosaurus"
    gender := "male"
    herbivore := false
    digestion_period_in_hours := 12
    park_id := 1
    time := 999900 }

def scenarioBatch : List NudlsEvent :=
  [NudlsEvent.dino_fed scenarioFed, NudlsEvent.dino_added scenarioAdded]

/-- The agent record the scenario batch must produce: identity from the
dino_added event, lastFedTime from the earlier-processed dino_fed event,
location still unknown. -/
def scenarioResultRow : Dinosaur :=
  { nudlsId := 7
    name := some "Rex"
    species := some "Tyrannosaurus"
    gender := some "male"
    herbivore := false
    currentLocation := none
    lastFedTime := some 1000000
    digestionPeriodHours := some 12
    parkId := some 1 }

/-- Claim C6: a dino_added event applied to a store that already holds
the referenced agent rewrites exactly the identity-set columns (name,
species, gender, herbivore, digestionPeriodHours, parkId) and leaves
currentLocation and lastFedTime untouched (and touches no other table);
in particular the batch [AgentFed(id 7, t), AgentAdded(id 7, carnivore,
digestion 12, t - 100)] leaves agent 7 a carnivore with lastFedAt = t
and currentZone = null. -/
theorem c6_added_preserves_operational (e : DinoAddedEvent) (s : DbState) (d : Dinosaur)
    (h : s.findDino e.id = some d) :
    (runDinoAdded e s).findDino e.id = some (addedUpdateRow e d) ∧
    (addedUpdateRow e d).currentLocation = d.currentLocation ∧
    (addedUpdateRow e d).lastFedTime = d.lastFedTime ∧
    (runDinoAdded e s).zones = s.zones ∧
    (runDinoAdded e s).maintenanceRecords = s.maintenanceRecords ∧
    (processEvents true scenarioBatch emptyDb).finalState.findDino 7 =
      some scenarioResultRow ∧
    scenarioResultRow.herbivore = false ∧
    scenarioResultRow.lastFedTime = some 1000000 ∧
    scenarioResultRow.currentLocation = none := by
  have hframe : (runDinoAdded e s).findDino e.id = some (addedUpdateRow e d) ∧
      (runDinoAdded e s).zones = s.zones ∧
      (runDinoAdded e s).maintenanceRecords = s.maintenanceRecords := by
    cases hc : hasDinosaurIdentityChanged s e with
    | false =>
      rw [runDinoAdded_of_not_changed e s hc]
      unfold hasDinosaurIdentityChanged at hc
      rw [h] at hc
      simp only [Bool.or_eq_false_iff, bne_eq_false_iff_eq] at hc
      obtain ⟨⟨⟨⟨⟨h1, h2⟩, h3⟩, h4⟩, h5⟩, h6⟩ := hc
      have : addedUpdateRow e d = d := by
        rcases d with ⟨di, dn, dsp, dg, dh, dcl, dlf, ddp, dpk⟩
        simp_all [addedUpdateRow]
      rw [this]
      exact ⟨h, rfl, rfl⟩
    | true =>
      simp only [runDinoAdded, hc, if_true]
      refine ⟨?_, rfl, rfl⟩
      rw [DbState.findDino_upsertDino s e.id (addedInsertRow e) (addedUpdateRow e) rfl
        (fun x => rfl), h]
  exact ⟨hframe.1, rfl, rfl, hframe.2.1, hframe.2.2, rfl, rfl, rfl, rfl⟩

/-- Claim C6 (witness): the dino_added of the scenario applied to a
store holding the fed shell for agent 7. -/
theorem c6_added_preserves_operational_witness :
    (DbState.findDino { emptyDb with dinosaurs := [fedShellRow 7 1000000 1] }
        scenarioAdded.id = some (fedShellRow 7 1000000 1)) ∧
    (runDinoAdded scenarioAdded
        { emptyDb with dinosaurs := [fedShellRow 7 1000000 1] }).findDino
        scenarioAdded.id = some (addedUpdateRow scenarioAdded (fedShellRow 7 1000000 1)) := by
  refine ⟨rfl, ?_⟩
  exact (c6_added_preserves_operational scenarioAdded
    { emptyDb with dinosaurs := [fedShellRow 7 1000000 1] } (fedShellRow 7 1000000 1) rfl).1

lemma carnivoreStillDigesting_iff (now : Int) (d : Dinosaur) :
    carnivoreStillDigesting now d = true ↔
      ∃ t, d.lastFedTime = some t ∧
        now - t < (d.digestionPeriodHours.getD 12) * msPerHour := by
  unfold carnivoreStillDigesting
  cases hft : d.lastFedTime <;> simp [hft]

lemma calculateZoneSafety_up (s : DbState) (z : String) (now : Int) :
    calculateZoneSafety true s z now =
      (s.dinosaurs.filter
        (fun d => d.currentLocation == some z && !d.herbivore)).all
        (carnivoreStillDigesting now) := by
  unfold calculateZoneSafety
  cases hL : s.dinosaurs.filter (fun d => d.currentLocation == some z && !d.herbivore) <;>
    simp [hL]

/-- A single carnivore in zone z with digestion period 12 hours and the
given feeding time, as stored by the entity store. -/
def testCarnivore (z : String) (fed : Option Int) : Dinosaur :=
  { nudlsId := 1
    name := none
    species := none
    gender := none
    herbivore := false
    currentLocation := some z
    lastFedTime := fed
    digestionPeriodHours := some 12
    parkId := some 1 }

/-- Claim C2: the zone-safety evaluation is true exactly when every
carnivore stored in the zone has a recorded feeding strictly less than
its digestion period ago (empty carnivore set vacuously safe, herbivores
ignored, null feeding unsafe); a carnivore fed at T with a 12-hour
digestion period makes the zone unsafe at T+12h, safe at T+11h59m, and
unsafe whenever its feeding time is null. -/
theorem c2_zone_safety : ∀ (s : DbState) (z : String) (now : Int),
    (calculateZoneSafety true s z now = true ↔
      ∀ d ∈ s.dinosaurs, d.currentLocation = some z → d.herbivore = false →
        ∃ t, d.lastFedTime = some t ∧
          now - t < (d.digestionPeriodHours.getD 12) * msPerHour) ∧
    (∀ T : Int,
      calculateZoneSafety true { emptyDb with dinosaurs := [testCarnivore z (some T)] } z
        (T + 12 * msPerHour) = false ∧
      calculateZoneSafety true { emptyDb with dinosaurs := [testCarnivore z (some T)] } z
        (T + 12 * msPerHour - 60000) = true ∧
      calculateZoneSafety true { emptyDb with dinosaurs := [testCarnivore z none] } z now
        = false) := by
  intro s z now
  constructor
  · rw [calculateZoneSafety_up, List.all_eq_true]
    constructor
    · intro hall d hd hloc hcarn
      have hmem : d ∈ s.dinosaurs.filter
          (fun d => d.currentLocation == some z && !d.herbivore) :=
        List.mem_filter.mpr ⟨hd, by simp [hloc, hcarn]⟩
      exact (carnivoreStillDigesting_iff now d).mp (hall d hmem)
    · intro hforall d hd
      rw [List.mem_filter] at hd
      obtain ⟨hmem, hp⟩ := hd
      simp only [Bool.and_eq_true, beq_iff_eq, Bool.not_eq_true'] at hp
      exact (carnivoreStillDigesting_iff now d).mpr (hforall d hmem hp.1 hp.2)
  · intro T
    refine ⟨?_, ?_, ?_⟩
    · rw [calculateZoneSafety_up]
      simp [testCarnivore, carnivoreStillDigesting, msPerHour]
    · rw [calculateZoneSafety_up]
      simp [testCarnivore, carnivoreStillDigesting, msPerHour]
      omega
    · rw [calculateZoneSafety_up]
      simp [testCarnivore, carnivoreStillDigesting]

lemma upsertDinoL_comm (l : List Dinosaur) (id : Int) (ins1 ins2 : Dinosaur)
    (upd1 upd2 : Dinosaur → Dinosaur)
    (h1 : ins1.nudlsId = id) (h2 : ins2.nudlsId = id)
    (hu1 : ∀ x, (upd1 x).nudlsId = x.nudlsId) (hu2 : ∀ x, (upd2 x).nudlsId = x.nudlsId)
    (hcomm : ∀ x, upd2 (upd1 x) = upd1 (upd2 x))
    (hins : upd2 ins1 = upd1 ins2) :
    upsertDinoL (upsertDinoL l id ins1 upd1) id ins2 upd2 =
      upsertDinoL (upsertDinoL l id ins2 upd2) id ins1 upd1 := by
  induction l with
  | nil =>
    show upsertDinoL [ins1] id ins2 upd2 = upsertDinoL [ins2] id ins1 upd1
    rw [upsertDinoL_cons, upsertDinoL_cons, if_pos h1, if_pos h2, hins]
  | cons d ds ih =>
    rw [upsertDinoL_cons, upsertDinoL_cons]
    by_cases h : d.nudlsId = id
    · rw [if_pos h, if_pos h, upsertDinoL_cons, upsertDinoL_cons,
        if_pos (by rw [hu1]; exact h), if_pos (by rw [hu2]; exact h), hcomm]
    · rw [if_neg h, if_neg h, upsertDinoL_cons, upsertDinoL_cons, if_neg h, if_neg h, ih]

lemma findDino_upsert_loc (s : DbState) (i : Int) (loc : String) (p : Int) :
    (s.upsertDino i (locShellRow i loc p)
        (fun d => { d with currentLocation := some loc })).findDino i =
      some (match s.findDino i with
            | none => locShellRow i loc p
            | some d => { d with currentLocation := some loc }) :=
  DbState.findDino_upsertDino s i (locShellRow i loc p)
    (fun d => { d with currentLocation := some loc }) rfl (fun x => rfl)

lemma findDino_upsert_fed (s : DbState) (i : Int) (t : Int) (p : Int) :
    (s.upsertDino i (fedShellRow i t p)
        (fun d => { d with lastFedTime := some t })).findDino i =
      some (match s.findDino i with
            | none => fedShellRow i t p
            | some d => { d with lastFedTime := some t }) :=
  DbState.findDino_upsertDino s i (fedShellRow i t p)
    (fun d => { d with lastFedTime := some t }) rfl (fun x => rfl)

/-- Claim C5 (counterexample): on an empty store, AgentFed(id 1,
park 1) then AgentLocationUpdated(id 1, zone A0, park 2) leaves the
shell with parkId 1, while the reverse order leaves parkId 2 — the final
Agent states differ, refuting unconditional order-independence. -/
theorem c5_counterexample :
    processDinoFed true { dinosaur_id := some 1, park_id := 1, time := 5 }
        (processDinoLocationUpdated true
          { dinosaur_id := some 1, location := some "A0", park_id := 2, time := 7 } emptyDb) ≠
      processDinoLocationUpdated true
        { dinosaur_id := some 1, location := some "A0", park_id := 2, time := 7 }
        (processDinoFed true { dinosaur_id := some 1, park_id := 1, time := 5 } emptyDb) := by
  decide

/-- Commutation of two conflict-upserts on the same key when a row with
that key is already present: the insert rows are never used, so only the
two update functions have to commute. -/
lemma upsertDinoL_comm_of_found (l : List Dinosaur) (id : Int) (ins1 ins2 : Dinosaur)
    (upd1 upd2 : Dinosaur → Dinosaur)
    (hu1 : ∀ x, (upd1 x).nudlsId = x.nudlsId) (hu2 : ∀ x, (upd2 x).nudlsId = x.nudlsId)
    (hcomm : ∀ x, upd2 (upd1 x) = upd1 (upd2 x))
    (hfound : findDinoL l id ≠ none) :
    upsertDinoL (upsertDinoL l id ins1 upd1) id ins2 upd2 =
      upsertDinoL (upsertDinoL l id ins2 upd2) id ins1 upd1 := by
  induction l with
  | nil => exact absurd rfl hfound
  | cons d ds ih =>
    by_cases h : d.nudlsId = id
    · rw [upsertDinoL_cons, upsertDinoL_cons, if_pos h, if_pos h,
        upsertDinoL_cons, upsertDinoL_cons, if_pos (by rw [hu1]; exact h),
        if_pos (by rw [hu2]; exact h), hcomm]
    · have hfound2 : findDinoL ds id ≠ none := by
        rw [findDinoL_cons, if_neg h] at hfound
        exact hfound
      rw [upsertDinoL_cons, upsertDinoL_cons, if_neg h, if_neg h,
        upsertDinoL_cons, upsertDinoL_cons, if_neg h, if_neg h, ih hfound2]

/-- Claim C5 (amended): for an AgentFed and an AgentLocationUpdated
event referencing the same externalId, applying the two in either order
yields the same final store state whenever the two events carry the same
park_id or the referenced agent already exists in the starting store;
only an absent agent together with differing park_id values breaks
order-independence (the shell keeps the first writer's park). -/
theorem c5_fed_loc_commute (s : DbState) (f : DinoFedEvent) (l : DinoLocationUpdatedEvent)
    (hid : f.dinosaur_id = l.dinosaur_id)
    (hpark : f.park_id = l.park_id ∨
      ∀ j, f.dinosaur_id = some j → (s.findDino j).isSome = true) :
    processDinoFed true f (processDinoLocationUpdated true l s) =
      processDinoLocationUpdated true l (processDinoFed true f s) := by
  rcases f with ⟨fid, fpark, ftime⟩
  rcases l with ⟨lid, lloc, lpark, ltime⟩
  simp only at hid hpark
  subst hid
  cases fid with
  | none => simp [processDinoFed, processDinoLocationUpdated]
  | some i =>
    cases lloc with
    | none => simp [processDinoLocationUpdated]
    | some loc =>
      by_cases hi : i = 0
      · simp [processDinoFed, processDinoLocationUpdated, hi]
      by_cases hl : loc = ""
      · simp [processDinoLocationUpdated, hl]
      have runFed : ∀ st : DbState,
          processDinoFed true { dinosaur_id := some i, park_id := fpark, time := ftime } st =
            if hasFeedingChanged st i ftime then
              st.upsertDino i (fedShellRow i ftime fpark)
                (fun d => { d with lastFedTime := some ftime })
            else st := by
        intro st
        simp [processDinoFed, hi]
      have runLoc : ∀ st : DbState,
          processDinoLocationUpdated true
              { dinosaur_id := some i, location := some loc, park_id := lpark, time := ltime }
              st =
            if hasLocationChanged st i loc then
              st.upsertDino i (locShellRow i loc lpark)
                (fun d => { d with currentLocation := some loc })
            else st := by
        intro st
        simp [processDinoLocationUpdated, hi, hl]
      rw [runFed, runLoc, runFed, runLoc]
      have hcomm : ∀ x : Dinosaur,
          (fun d => { d with lastFedTime := some ftime })
              ((fun d => { d with currentLocation := some loc }) x) =
            (fun d => { d with currentLocation := some loc })
              ((fun d => { d with lastFedTime := some ftime }) x) := fun x => rfl
      cases hD : s.findDino i with
      | none =>
        have hfp : fpark = lpark := by
          rcases hpark with h | h
          · exact h
          · have hs := h i rfl
            rw [hD] at hs
            simp at hs
        subst hfp
        have hins : (fun d => { d with lastFedTime := some ftime })
              (locShellRow i loc fpark) =
            (fun d => { d with currentLocation := some loc })
              (fedShellRow i ftime fpark) := rfl
        have hfc : hasFeedingChanged s i ftime = true := by
          simp [hasFeedingChanged, hD]
        have hlc : hasLocationChanged s i loc = true := by
          simp [hasLocationChanged, hD]
        have hfc1 : hasFeedingChanged (s.upsertDino i (locShellRow i loc fpark)
            (fun d => { d with currentLocation := some loc })) i ftime = true := by
          unfold hasFeedingChanged
          rw [findDino_upsert_loc, hD]
          simp [locShellRow]
        have hlc1 : hasLocationChanged (s.upsertDino i (fedShellRow i ftime fpark)
            (fun d => { d with lastFedTime := some ftime })) i loc = true := by
          unfold hasLocationChanged
          rw [findDino_upsert_fed, hD]
          simp [fedShellRow]
        simp only [hfc, hlc, hfc1, hlc1, if_true]
        unfold DbState.upsertDino
        congr 1
        exact upsertDinoL_comm s.dinosaurs i _ _ _ _ rfl rfl (fun x => rfl) (fun x => rfl)
          hcomm hins
      | some d =>
        have hfound : findDinoL s.dinosaurs i ≠ none := by
          have hD2 : s.findDino i = some d := hD
          unfold DbState.findDino at hD2
          simp [hD2]
        by_cases hfc : d.lastFedTime = some ftime <;>
          by_cases hlc : d.currentLocation = some loc
        · -- neither field changes: both processors skip in both orders
          have hf : hasFeedingChanged s i ftime = false := by
            simp [hasFeedingChanged, hD, hfc]
          have hl2 : hasLocationChanged s i loc = false := by
            simp [hasLocationChanged, hD, hlc]
          simp [hf, hl2]
        · -- only the location changes
          have hf : hasFeedingChanged s i ftime = false := by
            simp [hasFeedingChanged, hD, hfc]
          have hl2 : hasLocationChanged s i loc = true := by
            simp [hasLocationChanged, hD, hlc]
          have hf1 : hasFeedingChanged (s.upsertDino i (locShellRow i loc lpark)
              (fun d => { d with currentLocation := some loc })) i ftime = false := by
            unfold hasFeedingChanged
            rw [findDino_upsert_loc, hD]
            simp [hfc]
          simp [hf, hl2, hf1]
        · -- only the feeding time changes
          have hf : hasFeedingChanged s i ftime = true := by
            simp [hasFeedingChanged, hD, hfc]
          have hl2 : hasLocationChanged s i loc = false := by
            simp [hasLocationChanged, hD, hlc]
          have hl1 : hasLocationChanged (s.upsertDino i (fedShellRow i ftime fpark)
              (fun d => { d with lastFedTime := some ftime })) i loc = false := by
            unfold hasLocationChanged
            rw [findDino_upsert_fed, hD]
            simp [hlc]
          simp [hf, hl2, hl1]
        · -- both fields change
          have hf : hasFeedingChanged s i ftime = true := by
            simp [hasFeedingChanged, hD, hfc]
          have hl2 : hasLocationChanged s i loc = true := by
            simp [hasLocationChanged, hD, hlc]
          have hf1 : hasFeedingChanged (s.upsertDino i (locShellRow i loc lpark)
              (fun d => { d with currentLocation := some loc })) i ftime = true := by
            unfold hasFeedingChanged
            rw [findDino_upsert_loc, hD]
            simp [hfc]
          have hl1 : hasLocationChanged (s.upsertDino i (fedShellRow i ftime fpark)
              (fun d => { d with lastFedTime := some ftime })) i loc = true := by
            unfold hasLocationChanged
            rw [findDino_upsert_fed, hD]
            simp [hlc]
          simp only [hf, hl2, hf1, hl1, if_true]
          unfold DbState.upsertDino
          congr 1
          exact upsertDinoL_comm_of_found s.dinosaurs i _ _ _ _ (fun x => rfl)
            (fun x => rfl) hcomm hfound

/-- Claim C5 (witness): the commuting pair on the empty store with a
shared park, and on a store already holding agent 1 with two different
parks. -/
theorem c5_fed_loc_commute_witness :
    ((⟨some 1, 1, 5⟩ : DinoFedEvent).dinosaur_id =
      (⟨some 1, some "A0", 1, 7⟩ : DinoLocationUpdatedEvent).dinosaur_id) ∧
    ((⟨some 1, 1, 5⟩ : DinoFedEvent).park_id =
      (⟨some 1, some "A0", 1, 7⟩ : DinoLocationUpdatedEvent).park_id) ∧
    processDinoFed true ⟨some 1, 1, 5⟩
        (processDinoLocationUpdated true ⟨some 1, some "A0", 1, 7⟩ emptyDb) =
      processDinoLocationUpdated true ⟨some 1, some "A0", 1, 7⟩
        (processDinoFed true ⟨some 1, 1, 5⟩ emptyDb) ∧
    (DbState.findDino { emptyDb with dinosaurs := [fedShellRow 1 99 3] } 1).isSome = true ∧
    processDinoFed true ⟨some 1, 1, 5⟩
        (processDinoLocationUpdated true ⟨some 1, some "A0", 2, 7⟩
          { emptyDb with dinosaurs := [fedShellRow 1 99 3] }) =
      processDinoLocationUpdated true ⟨some 1, some "A0", 2, 7⟩
        (processDinoFed true ⟨some 1, 1, 5⟩
          { emptyDb with dinosaurs := [fedShellRow 1 99 3] }) := by
  refine ⟨rfl, rfl, ?_, rfl, ?_⟩
  · exact c5_fed_loc_commute emptyDb ⟨some 1, 1, 5⟩ ⟨some 1, some "A0", 1, 7⟩ rfl
      (Or.inl rfl)
  · exact c5_fed_loc_commute { emptyDb with dinosaurs := [fedShellRow 1 99 3] }
      ⟨some 1, 1, 5⟩ ⟨some 1, some "A0", 2, 7⟩ rfl
      (Or.inr (by intro j hj; cases hj; rfl))
